import Mathlib

/-!
Verification of the ia-utils OCR-to-catalog pipeline.

Shallow embedding of the core operations of `src/ia_utils`:
the three OCR parsers (`core/parser.py`), the catalog build and
text-rebuild table sequences (`core/database.py`), the FTS index
maintenance (`build_fts_indexes`), the page-identity resolver
(`utils/pages.py`) and the FTS query escaping
(`commands/search_catalog.py`).

Python strings are modelled as Lean `String` and operated on through
their underlying `List Char`; machine-level concerns (floats are
modelled exactly as `ℚ`, Python's Unicode digit / whitespace classes
as their ASCII restrictions, which cover every input considered here)
are noted next to each definition.
-/

namespace IAU

/-! ### Python string primitives -/

/-- Characters Python's `str.strip()` removes (ASCII whitespace). -/
def isPySpace (c : Char) : Bool :=
  c = ' ' || c = '\t' || c = '\n' || c = '\r' || c = '\x0b' || c = '\x0c'

/-- Strip `isPySpace` characters from both ends, as Python `str.strip()`. -/
def stripChars (cs : List Char) : List Char :=
  (cs.dropWhile isPySpace).rdropWhile isPySpace

/-- Python `s.strip()`. -/
def pyStrip (s : String) : String :=
  ⟨stripChars s.data⟩

/-- Python `s.split('\n')`. -/
def splitNlChars : List Char → List (List Char)
  | [] => [[]]
  | c :: rest =>
    let r := splitNlChars rest
    if c = '\n' then [] :: r
    else
      match r with
      | h :: t => (c :: h) :: t
      | [] => [[c]]

/-- Python `s.split('\n')` on strings. -/
def pySplitNl (s : String) : List String :=
  (splitNlChars s.data).map fun cs => ⟨cs⟩

/-- Accumulator pass for Python whitespace `split()` (no arguments):
runs of whitespace separate words, empty words are not produced. -/
def splitWsAux : List Char → List Char → List String
  | [], acc => if acc.isEmpty then [] else [⟨acc.reverse⟩]
  | c :: cs, acc =>
    if isPySpace c then
      if acc.isEmpty then splitWsAux cs []
      else (⟨acc.reverse⟩ : String) :: splitWsAux cs []
    else splitWsAux cs (c :: acc)

/-- Python `s.split()` with no separator argument. -/
def pySplitWs (s : String) : List String :=
  splitWsAux s.data []

/-- Python joining a list of words with single spaces. -/
def joinSp : List String → String
  | [] => ""
  | [s] => s
  | s :: rest => s ++ " " ++ joinSp rest

/-- Python slice `s[a:b]` for non-negative bounds (clamping included). -/
def pySlice (s : String) (a b : Nat) : String :=
  ⟨(s.data.drop a).take (b - a)⟩

/-- Value of a run of ASCII digits. -/
def digitsVal (ds : List Char) : Nat :=
  ds.foldl (fun a c => a * 10 + (c.toNat - 48)) 0

/-- Maximal leading digit run (greedy `\d+`), with the rest of the input. -/
def takeDigits : List Char → List Char × List Char
  | [] => ([], [])
  | c :: cs =>
    if c.isDigit then
      let (ds, r) := takeDigits cs
      (c :: ds, r)
    else ([], c :: cs)

/-- Match one-or-more digits (`\d+`, ASCII restriction of Python `\d`). -/
def matchDigits1 (cs : List Char) : Option (Nat × List Char) :=
  let (ds, r) := takeDigits cs
  if ds.isEmpty then none else some (digitsVal ds, r)

/-- Match a literal character sequence at the current position. -/
def matchLit : List Char → List Char → Option (List Char)
  | [], cs => some cs
  | _ :: _, [] => none
  | p :: ps, c :: cs => if c = p then matchLit ps cs else none

/-- Match `key` followed by a digit run at the current position
(used for `x_wconf (\d+)`, `x_fsize (\d+)`, `page_(\d+)`). -/
def keyNumAt (key : List Char) (cs : List Char) : Option Nat :=
  (matchLit key cs).bind fun r => (matchDigits1 r).map fun p => p.1

/-- Leftmost-match scan for `keyNumAt`, as `re.search`. -/
def searchKeyNumGo (key : List Char) : List Char → Option Nat
  | [] => none
  | c :: cs =>
    match keyNumAt key (c :: cs) with
    | some n => some n
    | none => searchKeyNumGo key cs

/-- Python `re.search(key + r'(\d+)', s)` returning the captured number. -/
def searchKeyNum (key : String) (s : String) : Option Nat :=
  searchKeyNumGo key.data s.data

/-- Match `bbox (\d+) (\d+) (\d+) (\d+)` at the current position. -/
def bboxAt (cs : List Char) : Option (Nat × Nat × Nat × Nat) :=
  (matchLit "bbox ".data cs).bind fun r0 =>
  (matchDigits1 r0).bind fun p0 =>
  (matchLit [' '] p0.2).bind fun r1 =>
  (matchDigits1 r1).bind fun p1 =>
  (matchLit [' '] p1.2).bind fun r2 =>
  (matchDigits1 r2).bind fun p2 =>
  (matchLit [' '] p2.2).bind fun r3 =>
  (matchDigits1 r3).map fun p3 =>
  (p0.1, p1.1, p2.1, p3.1)

/-- Leftmost-match scan for `bboxAt`. -/
def searchBboxGo : List Char → Option (Nat × Nat × Nat × Nat)
  | [] => none
  | c :: cs =>
    match bboxAt (c :: cs) with
    | some q => some q
    | none => searchBboxGo cs

/-- Source `parse_bbox`: extract bbox coordinates from an hOCR title
attribute via `re.search(r'bbox (\d+) (\d+) (\d+) (\d+)', title_str)`.
The all-`None` tuple of the source is modelled as `none`. -/
def parse_bbox (title_str : String) : Option (Nat × Nat × Nat × Nat) :=
  searchBboxGo title_str.data

/-- Source `parse_confidence`: extract `x_wconf` from a title attribute. -/
def parse_confidence (title_str : String) : Option Nat :=
  searchKeyNum "x_wconf " title_str

/-- Source `parse_font_size`: extract `x_fsize` from a title attribute. -/
def parse_font_size (title_str : String) : Option Nat :=
  searchKeyNum "x_fsize " title_str

/-- Exact mean of a list of naturals, as `statistics.mean`
(floats are modelled exactly; every value proved about here is
float-exact). -/
def meanQ (xs : List Nat) : ℚ :=
  (xs.map fun n => (n : ℚ)).sum / (xs.length : ℚ)

/-! ### hOCR document model

An hOCR document is modelled at the granularity the parser reads it:
pages (`class="ocr_page"`) contain block elements (paragraph, caption,
header, floating text), which contain line elements
(`class="ocr_line"`), which contain word elements
(`class="ocrx_word"`).  Attribute strings (`title`, `id`, `class`,
`lang`, `dir`) are carried verbatim.  The nearest enclosing
`ocr_carea` ancestor id that `extract_parent_carea_id` walks to is
carried on the block. -/

structure HWord where
  text : String
  title : String
  deriving DecidableEq

structure HLine where
  words : List HWord
  deriving DecidableEq

structure HBlock where
  id : String
  classes : List String
  title : String
  lang : Option String
  xmlLang : Option String
  dir : Option String
  carea : Option String
  lines : List HLine
  deriving DecidableEq

structure HPage where
  id : String
  blocks : List HBlock
  deriving DecidableEq

/-- Normalised text block record, the row schema of `text_blocks`
produced by `parse_hocr` / `parse_djvu_xml`.  The four `bbox_*`
columns of the source are all-present or all-`NULL` (they come from
one `parse_bbox` call), and are modelled as one optional tuple. -/
structure TextBlock where
  page_id : Nat
  block_number : Nat
  hocr_id : String
  block_type : String
  language : Option String
  text_direction : Option String
  bbox : Option (Nat × Nat × Nat × Nat)
  text : String
  line_count : Nat
  length : Nat
  avg_confidence : Option ℚ
  avg_font_size : Option ℚ
  parent_carea_id : Option String
  deriving DecidableEq

/-- Python truthiness of an optional string (`None` and `''` false). -/
def truthyStr : Option String → Bool
  | none => false
  | some s => s ≠ ""

/-- Python `a or b` on optional strings. -/
def pyOrStr (a b : Option String) : Option String :=
  if truthyStr a then a else b

/-- All word elements of a block, in document order
(`block.find_all(class_='ocrx_word')`). -/
def blockWords (b : HBlock) : List HWord :=
  (b.lines.map fun ln => ln.words).flatten

/-- Source `extract_plain_text`: word texts (each whitespace-stripped
by `get_text(strip=True)`) joined with single spaces. -/
def extract_plain_text (b : HBlock) : String :=
  joinSp ((blockWords b).map fun w => pyStrip w.text)

/-- Source `get_block_type`: first CSS class starting with `ocr_`,
else `unknown`. -/
def get_block_type (b : HBlock) : String :=
  match b.classes.filter (fun c => c.data.take 4 = "ocr_".data) with
  | [] => "unknown"
  | c :: _ => c

/-- Sort key of `sort_blocks_by_position`:
`(bbox[1] or 0, bbox[0] or 0)`, that is `(y0, x0)` with missing
coordinates read as `0`. -/
def posKey (b : HBlock) : Nat × Nat :=
  match parse_bbox b.title with
  | some (x0, y0, _, _) => (y0, x0)
  | none => (0, 0)

/-- Lexicographic `≤` on sort keys. -/
def keyLe (a b : Nat × Nat) : Bool :=
  a.1 < b.1 || (a.1 = b.1 && a.2 ≤ b.2)

/-- Stable insertion of a block into a position-sorted list: the new
block goes before the first block whose key it is `≤`, so blocks with
equal keys keep their source order (Python `sorted` is stable). -/
def insertBlk (b : HBlock) : List HBlock → List HBlock
  | [] => [b]
  | x :: xs =>
    if keyLe (posKey b) (posKey x) then b :: x :: xs
    else x :: insertBlk b xs

/-- Source `sort_blocks_by_position`: stable sort by `posKey`. -/
def sort_blocks_by_position : List HBlock → List HBlock
  | [] => []
  | b :: bs => insertBlk b (sort_blocks_by_position bs)

/-- Source `extract_page_id`:
`re.search(r'page_(\d+)', page.get('id', ''))`, defaulting to `0`. -/
def extract_page_id (p : HPage) : Nat :=
  (searchKeyNum "page_" p.id).getD 0

/-- Block collection of `parse_hocr`: the four `find_all` calls
concatenated (paragraphs, then captions, then headers, then floating
text), not document order across roles. -/
def collectBlocks (p : HPage) : List HBlock :=
  p.blocks.filter (fun b => b.classes.contains "ocr_par") ++
  p.blocks.filter (fun b => b.classes.contains "ocr_caption") ++
  p.blocks.filter (fun b => b.classes.contains "ocr_header") ++
  p.blocks.filter (fun b => b.classes.contains "ocr_textfloat")

/-- Row built for one kept hOCR block (the dict appended to
`blocks_list` in `parse_hocr`). -/
def hocrBlockRecord (pageId : Nat) (blockNumber : Nat) (b : HBlock) : TextBlock :=
  let text := extract_plain_text b
  let words := blockWords b
  let confidences := words.filterMap fun w => parse_confidence w.title
  let fontSizes := words.filterMap fun w => parse_font_size w.title
  { page_id := pageId
    block_number := blockNumber
    hocr_id := b.id
    block_type := get_block_type b
    language := pyOrStr b.lang b.xmlLang
    text_direction := some (b.dir.getD "ltr")
    bbox := parse_bbox b.title
    text := text
    line_count := b.lines.length
    length := text.data.length
    avg_confidence := if confidences.isEmpty then none else some (meanQ confidences)
    avg_font_size := if fontSizes.isEmpty then none else some (meanQ fontSizes)
    parent_carea_id := b.carea }

/-- Per-page emission loop of `parse_hocr`:
`for block_number, block in enumerate(blocks)` — the counter advances
on every sorted block, and blocks whose stripped text is empty are
skipped after consuming their number. -/
def processBlocks (pageId : Nat) : Nat → List HBlock → List TextBlock
  | _, [] => []
  | n, b :: bs =>
    if pyStrip (extract_plain_text b) = "" then processBlocks pageId (n + 1) bs
    else hocrBlockRecord pageId n b :: processBlocks pageId (n + 1) bs

/-- Source `parse_hocr`: per page, collect the block-role elements,
sort by position, and emit rows for blocks with non-empty stripped
text. -/
def parse_hocr (pages : List HPage) : List TextBlock :=
  (pages.map fun p =>
    processBlocks (extract_page_id p) 0 (sort_blocks_by_position (collectBlocks p))).flatten

/-! ### Plain-text + offset-index parser (`blocks_from_searchtext`) -/

/-- Row schema of searchtext-mode text blocks. -/
structure STBlock where
  page_id : Nat
  block_number : Nat
  text : String
  length : Nat
  deriving DecidableEq

/-- Row schema of the `pages` offset table. -/
structure PageRec where
  page_id : Nat
  char_start : Nat
  char_end : Nat
  hocr_byte_start : Nat
  hocr_byte_end : Nat
  deriving DecidableEq

/-- Per-page emission of `blocks_from_searchtext`:
`for block_number, line in enumerate(page_text.split('\n'))` keeps a
line only when its stripped text is non-empty; the line index is the
block number whether or not the line is kept. -/
def searchtextPageBlocks (pageId : Nat) (pageText : String) : List STBlock :=
  ((pySplitNl pageText).enum.filterMap fun p =>
    let text := pyStrip p.2
    if text = "" then none
    else some { page_id := pageId, block_number := p.1,
                text := text, length := text.data.length })

/-- Source `blocks_from_searchtext`: slice each page's
`[char_start:char_end)` range out of the flat text, split into lines,
and emit one block per non-empty stripped line; the `pages` table
records the offsets of every page. -/
def blocks_from_searchtext (content : String)
    (pageindex : List (Nat × Nat × Nat × Nat)) :
    List STBlock × List PageRec :=
  let pages := pageindex.enum.map fun p =>
    { page_id := p.1, char_start := p.2.1, char_end := p.2.2.1,
      hocr_byte_start := p.2.2.2.1, hocr_byte_end := p.2.2.2.2 : PageRec }
  let blocks := (pageindex.enum.map fun p =>
    searchtextPageBlocks p.1 (pySlice content p.2.1 p.2.2.1)).flatten
  (blocks, pages)

/-! ### Hierarchical-paragraph parser (`parse_djvu_xml`)

The DjVu XML document is modelled as the stream of top-level `OBJECT`
elements (one per page) the `iterparse` loop visits, each containing
`PARAGRAPH` elements containing `LINE` elements containing `WORD`
elements.  A word carries its optional text content and optional
`x-confidence` attribute. -/

structure DWord where
  text : Option String
  xconf : Option String
  deriving DecidableEq

structure DLine where
  words : List DWord
  deriving DecidableEq

structure DPara where
  lines : List DLine
  deriving DecidableEq

structure DObject where
  paras : List DPara
  deriving DecidableEq

/-- Python `int(s)` on a string: optional surrounding whitespace, an
optional sign, then digits (digit-group underscores of Python are not
modelled; no input considered here contains them). -/
def pyInt (s : String) : Option Int :=
  let t := stripChars s.data
  match t with
  | '-' :: ds =>
      if ds ≠ [] ∧ ds.all Char.isDigit then some (-(digitsVal ds : Int)) else none
  | '+' :: ds =>
      if ds ≠ [] ∧ ds.all Char.isDigit then some (digitsVal ds : Int) else none
  | ds =>
      if ds ≠ [] ∧ ds.all Char.isDigit then some (digitsVal ds : Int) else none

/-- Python truthiness test `if word.text:` / `if conf:`. -/
def dTruthy (o : Option String) : Bool :=
  match o with
  | none => false
  | some s => s ≠ ""

/-- Word texts kept by the DjVu loop (`if word.text:`), over all lines
of a paragraph in document order (`para.iter('WORD')`). -/
def dParaWords (p : DPara) : List String :=
  ((p.lines.map fun ln => ln.words).flatten).filterMap fun w =>
    if dTruthy w.text then w.text else none

/-- Confidence values kept by the DjVu loop: the word is kept, its
`x-confidence` attribute is truthy, and `int()` parses it (a
`ValueError` is swallowed). -/
def dParaConfs (p : DPara) : List Int :=
  ((p.lines.map fun ln => ln.words).flatten).filterMap fun w =>
    if dTruthy w.text then
      match w.xconf with
      | some c => if c ≠ "" then pyInt c else none
      | none => none
    else none

/-- Exact mean of a list of integers, as `statistics.mean`. -/
def meanZ (xs : List Int) : ℚ :=
  (xs.map fun n => (n : ℚ)).sum / (xs.length : ℚ)

/-- Python `f"par_{page_id:06d}_{block_number:06d}"` zero padding. -/
def padZeros6 (n : Nat) : String :=
  let s := toString n
  ⟨List.replicate (6 - s.data.length) '0' ++ s.data⟩

/-- Paragraph loop body of `parse_djvu_xml` for one page: emits a row
per paragraph with at least one truthy word whose joined text strips
non-empty; `block_number` advances only when a row is emitted. -/
def djvuParas (pageId : Nat) : Nat → List DPara → List TextBlock
  | _, [] => []
  | n, p :: ps =>
    if (dParaWords p).isEmpty then djvuParas pageId n ps
    else
      let text := joinSp (dParaWords p)
      if pyStrip text = "" then djvuParas pageId n ps
      else
        let confs := dParaConfs p
        { page_id := pageId
          block_number := n
          hocr_id := "par_" ++ padZeros6 pageId ++ "_" ++ padZeros6 n
          block_type := "ocr_par"
          language := none
          text_direction := none
          bbox := none
          text := text
          line_count := p.lines.length
          length := text.data.length
          avg_confidence := if confs.isEmpty then none else some (meanZ confs)
          avg_font_size := none
          parent_carea_id := none : TextBlock } :: djvuParas pageId (n + 1) ps

/-- Source `parse_djvu_xml`: pages are enumerated in stream order,
paragraph rows per page as in `djvuParas`. -/
def parse_djvu_xml (objects : List DObject) : List TextBlock :=
  (objects.enum.map fun p => djvuParas p.1 0 p.2.paras).flatten

/-! ### FTS query escaping (`commands/search_catalog.py`) -/

/-- Source `FTS5_SPECIAL_CHARS = set('-*^:()')`. -/
def fts5SpecialChars : List Char := ['-', '*', '^', ':', '(', ')']

/-- Source `FTS5_KEYWORD = re.compile(r'^(AND|OR|NOT|NEAR(/\d+)?)$', re.IGNORECASE)`
applied to whitespace-free tokens (ASCII case folding; `\d` as ASCII). -/
def isFts5Keyword (t : String) : Bool :=
  let u : String := ⟨t.data.map Char.toUpper⟩
  u = "AND" || u = "OR" || u = "NOT" || u = "NEAR" ||
    (u.data.take 5 = "NEAR/".data &&
      (u.data.drop 5) ≠ [] && (u.data.drop 5).all Char.isDigit)

/-- Python `token.startswith('"') and token.endswith('"')`. -/
def isQuotedTok (t : String) : Bool :=
  t.data.head? = some '"' && t.data.getLast? = some '"'

/-- Python `token.replace('"', '""')`. -/
def escQuotes : List Char → List Char
  | [] => []
  | c :: cs => if c = '"' then '"' :: '"' :: escQuotes cs else c :: escQuotes cs

/-- Phrase-quote a token, doubling its internal quotes. -/
def quoteToken (t : String) : String :=
  ⟨'"' :: escQuotes t.data ++ ['"']⟩

/-- Python `any(c in token for c in FTS5_SPECIAL_CHARS)`. -/
def hasSpecialChar (t : String) : Bool :=
  t.data.any fun c => fts5SpecialChars.contains c

/-- Loop body of `escape_fts_query`: keywords pass, already-quoted
tokens pass, tokens with special characters are phrase-quoted, the
rest pass. -/
def escapeToken (t : String) : String :=
  if isFts5Keyword t then t
  else if isQuotedTok t then t
  else if hasSpecialChar t then quoteToken t
  else t

/-- Source `escape_fts_query`: a query that itself starts and ends
with a double quote is returned verbatim; otherwise the query is
whitespace-split, each token is escaped, and the tokens are rejoined
with single spaces. -/
def escape_fts_query (query : String) : String :=
  if isQuotedTok query then query
  else joinSp ((pySplitWs query).map escapeToken)

/-- Query actually executed by `search_catalog`:
`query if raw else escape_fts_query(query)`. -/
def ftsQuery (raw : Bool) (query : String) : String :=
  if raw then query else escape_fts_query query

/-- Per-term transform exactly as claim C4 words it, with no
whole-query shortcut: a term with a special character is phrase-quoted
unless it is an operator token or already quoted, all other terms are
unchanged.  Kept separate from `escape_fts_query` so the two can be
compared. -/
def claimedEscapeToken (t : String) : String :=
  if hasSpecialChar t && !isFts5Keyword t && !isQuotedTok t then quoteToken t
  else t

/-- Whole-query escaping as claim C4 words it. -/
def claimedEscape (query : String) : String :=
  joinSp ((pySplitWs query).map claimedEscapeToken)

/-- Modelled from the spec: the FTS5 match semantics (SQLite is an
external collaborator; §4.4 documents quoted phrases as matching
adjacent token runs and bare terms under implicit AND).  Documents are
tokenised into lowercased alphanumeric runs. -/
def ftsTokenize (s : String) : List String :=
  pySplitWs ⟨s.data.map fun c => if c.isAlphanum then c.toLower else ' '⟩

/-- Modelled from the spec: a phrase matches when its token list
occurs contiguously in the document's token list. -/
def phraseMatches (doc : String) (phrase : List String) : Bool :=
  (List.range ((ftsTokenize doc).length + 1)).any fun i =>
    ((ftsTokenize doc).drop i).take phrase.length = phrase

/-- Modelled from the spec: implicit-AND matching of bare terms, each
term anywhere in the document. -/
def andMatches (doc : String) (terms : List String) : Bool :=
  terms.all fun t => (ftsTokenize doc).contains t

/-! ### Page identity resolver (`utils/pages.py`) -/

/-- Row of the `page_numbers` mapping table (columns used by
`get_leaf_num`). -/
structure PNRow where
  leaf_num : Int
  book_page_number : String
  deriving DecidableEq

/-- Source `get_leaf_num`.  Raised `ValueError`s are modelled as
`Except.error` carrying the exception message.  `db` is the optional
catalog handle with its `page_numbers` rows; `fetched` stands for the
`pages` list of the `page_numbers.json` that `ia_client.download_json`
returns on the on-demand path (`none` when the download fails or the
document has no `pages` key — that path's distinct message mentions
`page_numbers.json`). -/
def get_leaf_num (page_num : Int) (page_type : String)
    (ia_id : Option String) (db : Option (List PNRow))
    (fetched : Option (List (String × Int))) : Except String Int :=
  if page_type = "leaf" then Except.ok page_num
  else if page_type = "book" then
    match db with
    | some rows =>
      match rows.find? fun r => r.book_page_number = toString page_num with
      | some r => Except.ok r.leaf_num
      | none =>
        Except.error ("Could not look up book page '" ++ toString page_num ++
          "': Book page '" ++ toString page_num ++ "' not found in page_numbers table")
    | none =>
      match ia_id with
      | some _ =>
        match fetched with
        | some pagesList =>
          match pagesList.find? fun e => e.1 = toString page_num with
          | some e => Except.ok e.2
          | none =>
            Except.error ("Could not look up book page '" ++ toString page_num ++
              "': Book page '" ++ toString page_num ++ "' not found in page_numbers.json")
        | none =>
          Except.error ("Could not look up book page '" ++ toString page_num ++
            "': download failed")
      | none => Except.error "Book page lookup requires either index database or IA ID"
  else
    Except.error ("Unknown page_type: " ++ page_type ++ ". Use 'leaf' or 'book'.")

/-! ### Derived FTS indices (`build_fts_indexes` and its triggers)

The `text_blocks` table is modelled as its rows in rowid order
(SQLite rowid-table scan order; fresh inserts append).  The
block-level index `text_blocks_fts` is the external-content FTS table
`enable_fts(['text'], create_triggers=True)` keeps in per-row sync;
the page-level index `pages_fts` is rebuilt wholesale by
`DELETE FROM pages_fts; INSERT ... SELECT group_concat(text, ' ') ...
GROUP BY page_id` after every insert, update and delete.
`group_concat` concatenates in the order rows are scanned inside each
group — rowid order under the `idx_page(page_id)` index — and the
groups come out in ascending `page_id` order. -/

structure TBRow where
  rowid : Nat
  page_id : Nat
  block_number : Nat
  text : String
  deriving DecidableEq

/-- Insert a page id into an ascending duplicate-free list. -/
def insertPid (n : Nat) : List Nat → List Nat
  | [] => [n]
  | m :: ms =>
    if n < m then n :: m :: ms
    else if n = m then m :: ms
    else m :: insertPid n ms

/-- Distinct `page_id`s of a row list, ascending. -/
def pageIds (rows : List TBRow) : List Nat :=
  rows.foldr (fun r acc => insertPid r.page_id acc) []

/-- The `group_concat(text, ' ')` aggregate for one page: that page's
row texts in rowid (scan) order, single-space separated. -/
def pageText (rows : List TBRow) (pid : Nat) : String :=
  joinSp ((rows.filter fun r => r.page_id == pid).map fun r => r.text)

/-- Content of `pages_fts` as the rebuild query computes it:
one `(page_id, page_text)` row per distinct page id. -/
def pagesAgg (rows : List TBRow) : List (Nat × String) :=
  (pageIds rows).map fun pid => (pid, pageText rows pid)

/-- Content of `text_blocks_fts` recomputed from the table. -/
def blocksAgg (rows : List TBRow) : List (Nat × String) :=
  rows.map fun r => (r.rowid, r.text)

/-- Catalog state restricted to the text table and its two indices. -/
structure FtsState where
  blocks : List TBRow
  blockFts : List (Nat × String)
  pagesFts : List (Nat × String)
  deriving DecidableEq

/-- Source `build_fts_indexes`: both indices are dropped and
recomputed from the current `text_blocks` contents. -/
def build_fts_indexes (s : FtsState) : FtsState :=
  { s with blockFts := blocksAgg s.blocks, pagesFts := pagesAgg s.blocks }

/-- An `INSERT` on `text_blocks` with the triggers in place: the row
is appended (fresh rowid at the end), the block-level `ai` trigger
adds its `(rowid, text)` entry, the page-level trigger deletes and
recomputes `pages_fts` wholesale. -/
def insertRow (s : FtsState) (r : TBRow) : FtsState :=
  { blocks := s.blocks ++ [r]
    blockFts := s.blockFts ++ [(r.rowid, r.text)]
    pagesFts := pagesAgg (s.blocks ++ [r]) }

/-- An `UPDATE` of the text of the row with rowid `rid`: the
block-level `au` trigger swaps that rowid's entry, the page-level
trigger recomputes wholesale. -/
def updateRowText (s : FtsState) (rid : Nat) (newText : String) : FtsState :=
  let blocks := s.blocks.map fun r =>
    if r.rowid == rid then { r with text := newText } else r
  { blocks := blocks
    blockFts := s.blockFts.map fun e => if e.1 == rid then (e.1, newText) else e
    pagesFts := pagesAgg blocks }

/-- A `DELETE` of the row with rowid `rid`: the block-level `ad`
trigger removes that rowid's entry, the page-level trigger recomputes
wholesale. -/
def deleteRow (s : FtsState) (rid : Nat) : FtsState :=
  let blocks := s.blocks.filter fun r => !(r.rowid == rid)
  { blocks := blocks
    blockFts := s.blockFts.filter fun e => !(e.1 == rid)
    pagesFts := pagesAgg blocks }

/-- Consistency of the two indices with the table: both equal their
deterministic recomputation from the current rows. -/
def synced (s : FtsState) : Prop :=
  s.blockFts = blocksAgg s.blocks ∧ s.pagesFts = pagesAgg s.blocks

/-- Page aggregate in block-number order — the function claim C5
words the page-level index as ("concatenated in block order"), kept
separate from `pagesAgg` so the two can be compared.  Within a page,
rows are stably sorted by `block_number` before concatenation. -/
def insertByBlockNum (r : TBRow) : List TBRow → List TBRow
  | [] => [r]
  | x :: xs =>
    if r.block_number ≤ x.block_number then r :: x :: xs
    else x :: insertByBlockNum r xs

/-- Stable sort of rows by `block_number`. -/
def sortByBlockNum : List TBRow → List TBRow
  | [] => []
  | r :: rs => insertByBlockNum r (sortByBlockNum rs)

/-- Claimed page aggregate: texts in block-number order. -/
def blockOrderAgg (rows : List TBRow) : List (Nat × String) :=
  (pageIds rows).map fun pid =>
    (pid, joinSp ((sortByBlockNum (rows.filter fun r => r.page_id == pid)).map
      fun r => r.text))

/-! ### Catalog store (`create_catalog_database`, `rebuild_text_blocks`)

The persisted store is the eight tables the build touches; a dropped
or never-created table is `none`.  `sqlite_utils` autocommits each
statement and `create_catalog_database` opens no transaction, so the
build is a plain sequence of store updates: the state persisted when
statement `k` fails is the fold of the first `k` steps. -/

/-- Distinct page ids of `(page_id, text)` pairs, ascending. -/
def pidsOf (ps : List (Nat × String)) : List Nat :=
  ps.foldr (fun p acc => insertPid p.1 acc) []

/-- The `group_concat(text, ' ')` aggregate over pairs. -/
def pageTextOf (ps : List (Nat × String)) (pid : Nat) : String :=
  joinSp ((ps.filter fun p => p.1 == pid).map fun p => p.2)

/-- Page-level aggregate over `(page_id, text)` pairs. -/
def pagesAggPairs (ps : List (Nat × String)) : List (Nat × String) :=
  (pidsOf ps).map fun pid => (pid, pageTextOf ps pid)

/-- Result of `insert_all(rows, pk=key, replace=True)`: rows arrive in
order, and a row whose key is already present replaces the earlier
row in place. -/
def upsertBy {α β : Type} [BEq β] (key : α → β) (rows : List α) : List α :=
  rows.foldl (fun acc r =>
    if acc.any fun a => key a == key r
    then acc.map fun a => if key a == key r then r else a
    else acc ++ [r]) []

/-- File entry as `parse_files` returns it. -/
structure FileRec where
  filename : String
  format : String
  size : Int
  source : String
  md5 : String
  sha1 : String
  crc32 : String
  deriving DecidableEq

/-- Row of `archive_files`. -/
structure ArchiveRow where
  filename : String
  format : String
  size_bytes : Int
  source_type : String
  md5_checksum : String
  sha1_checksum : String
  crc32_checksum : String
  download_url : String
  deriving DecidableEq

/-- Entry of the `pages` list of a `page_numbers.json` document. -/
structure PNInput where
  leafNum : Int
  pageNumber : Option String
  confidence : Option ℚ
  pageProb : Option ℚ
  wordConf : Option ℚ
  deriving DecidableEq

/-- Row of the persisted `page_numbers` table. -/
structure PNTableRow where
  leaf_num : Int
  book_page_number : String
  confidence : Option ℚ
  pageProb : Option ℚ
  wordConf : Option ℚ
  deriving DecidableEq

/-- The eight tables of a catalog store; `β` is the text-block row
schema of the ingestion mode. -/
structure Store (β : Type) where
  catalog_metadata : Option (List (String × String))
  document_metadata : Option (List (String × String))
  archive_files : Option (List ArchiveRow)
  text_blocks : Option (List β)
  pages : Option (List PageRec)
  page_numbers : Option (List PNTableRow)
  text_blocks_fts : Option (List String)
  pages_fts : Option (List (Nat × String))
  deriving DecidableEq

/-- Store with no tables. -/
def emptyStore {β : Type} : Store β :=
  ⟨none, none, none, none, none, none, none, none⟩

/-- Key-value join of repeated metadata keys
(`metadata_dict[key] = f"{metadata_dict[key]}; {value}"`),
insertion-ordered as a Python dict. -/
def mdJoin (metadata : List (String × String)) : List (String × String) :=
  metadata.foldl (fun acc kv =>
    if acc.any fun p => p.1 == kv.1
    then acc.map fun p => if p.1 == kv.1 then (p.1, p.2 ++ "; " ++ kv.2) else p
    else acc ++ [kv]) []

/-- Row written to `archive_files` for one file entry. -/
def archiveRow (ia_id : String) (f : FileRec) : ArchiveRow :=
  { filename := f.filename
    format := f.format
    size_bytes := f.size
    source_type := f.source
    md5_checksum := f.md5
    sha1_checksum := f.sha1
    crc32_checksum := f.crc32
    download_url := "https://archive.org/download/" ++ ia_id ++ "/" ++ f.filename }

/-- Row written to `page_numbers` for one mapping entry
(`page_info.get('pageNumber', '')` defaults the page string). -/
def pnTableRow (p : PNInput) : PNTableRow :=
  { leaf_num := p.leafNum
    book_page_number := p.pageNumber.getD ""
    confidence := p.confidence
    pageProb := p.pageProb
    wordConf := p.wordConf }

/-- Contents written to `catalog_metadata`. -/
def catalogRecords (slug now mode : String) : List (String × String) :=
  upsertBy (fun p => p.1)
    [("slug", slug), ("created_at", now), ("catalog_mode", mode)]

/-- Contents written to `archive_files`. -/
def archiveTable (ia_id : String) (files : List FileRec) : List ArchiveRow :=
  upsertBy (fun a => a.filename) (files.map (archiveRow ia_id))

/-- Contents written to `text_blocks` in searchtext mode
(composite pk `page_id, block_number`). -/
def stBlocksTable (blocks : List STBlock) : List STBlock :=
  upsertBy (fun b => (b.page_id, b.block_number)) blocks

/-- Contents written to `pages`. -/
def pagesTable (pages : List PageRec) : List PageRec :=
  upsertBy (fun p => p.page_id) pages

/-- Contents written to `page_numbers`. -/
def pnTable (page_numbers : List PNInput) : List PNTableRow :=
  upsertBy (fun r => r.leaf_num) (page_numbers.map pnTableRow)

/-- Block-level index contents derived from a searchtext-mode table. -/
def stBlockFts (s : Store STBlock) : List String :=
  (s.text_blocks.getD []).map fun b => b.text

/-- Page-level index contents derived from a searchtext-mode table. -/
def stPagesFts (s : Store STBlock) : List (Nat × String) :=
  pagesAggPairs ((s.text_blocks.getD []).map fun b => (b.page_id, b.text))

/-- Statement sequence of `create_catalog_database` in searchtext mode
with a `pages` list and a `page_numbers` mapping supplied (the fast
ingestion path, which runs every conditional step).  Each list entry
is one autocommitted write; `CREATE INDEX` statements change no table
contents and appear as the identity step so failure points keep their
position in the source sequence. -/
def buildSteps (ia_id slug now : String) (mode : String)
    (metadata : List (String × String)) (files : List FileRec)
    (blocks : List STBlock) (pages : List PageRec)
    (page_numbers : List PNInput) :
    List (Store STBlock → Store STBlock) :=
  [ fun _ => emptyStore,
    fun s => { s with catalog_metadata := some (catalogRecords slug now mode) },
    fun s => { s with document_metadata := some (mdJoin metadata) },
    fun s => { s with archive_files := some (archiveTable ia_id files) },
    fun s => { s with text_blocks := some (stBlocksTable blocks) },
    fun s => { s with pages := some (pagesTable pages) },
    fun s => { s with page_numbers := some (pnTable page_numbers) },
    fun s => s,
    fun s => { s with text_blocks_fts := some (stBlockFts s) },
    fun s => { s with pages_fts := some (stPagesFts s) } ]

/-- Persisted store after the first `k` statements of a build into a
fresh location succeed and statement `k` fails (autocommit, no
enclosing transaction). -/
def runPrefix (ia_id slug now mode : String)
    (metadata : List (String × String)) (files : List FileRec)
    (blocks : List STBlock) (pages : List PageRec)
    (page_numbers : List PNInput) (k : Nat) : Store STBlock :=
  ((buildSteps ia_id slug now mode metadata files blocks pages page_numbers).take k).foldl
    (fun s f => f s) emptyStore

/-- Contents written to `text_blocks` by the text-only rebuild
(pk `hocr_id`). -/
def hocrBlocksTable (hocr : List HPage) : List TextBlock :=
  upsertBy (fun b => b.hocr_id) (parse_hocr hocr)

/-- Source `rebuild_text_blocks` on the store: only `text_blocks` is
dropped and refilled from the freshly parsed hOCR. -/
def rebuild_text_blocks (s : Store TextBlock) (hocr : List HPage) : Store TextBlock :=
  { s with text_blocks := some (hocrBlocksTable hocr) }

/-- Block-level index contents derived from an hOCR-mode table. -/
def hBlockFts (s : Store TextBlock) : List String :=
  (s.text_blocks.getD []).map fun b => b.text

/-- Page-level index contents derived from an hOCR-mode table. -/
def hPagesFts (s : Store TextBlock) : List (Nat × String) :=
  pagesAggPairs ((s.text_blocks.getD []).map fun b => (b.page_id, b.text))

/-- Source `build_fts_indexes` on the full store: both indices are
dropped and recomputed from the current `text_blocks` table. -/
def build_fts_store (s : Store TextBlock) : Store TextBlock :=
  { s with text_blocks_fts := some (hBlockFts s), pages_fts := some (hPagesFts s) }

/-- The text-only rebuild of `rebuild_catalog` (non-`--full` path):
`rebuild_text_blocks` then `build_fts_indexes`. -/
def rebuildText (s : Store TextBlock) (hocr : List HPage) : Store TextBlock :=
  build_fts_store (rebuild_text_blocks s hocr)

/-- Position key of an emitted row, read back from its bbox columns
exactly as `sort_blocks_by_position` read it from the title. -/
def tbKey (tb : TextBlock) : Nat × Nat :=
  match tb.bbox with
  | some q => (q.2.1, q.1)
  | none => (0, 0)

/-!
## Theorems

Shared lemmas first, then one principal theorem per claim (with its
counterexample and witness where required).
-/

/-- Stripping is idempotent: dropping leading whitespace leaves the
result's head non-whitespace, and `rdropWhile` is idempotent. -/
theorem stripChars_idem (cs : List Char) :
    stripChars (stripChars cs) = stripChars cs := by
  unfold stripChars
  have hXd : (cs.dropWhile isPySpace).dropWhile isPySpace = cs.dropWhile isPySpace :=
    List.dropWhile_idempotent isPySpace cs
  have h1 : ((cs.dropWhile isPySpace).rdropWhile isPySpace).dropWhile isPySpace =
      (cs.dropWhile isPySpace).rdropWhile isPySpace := by
    obtain ⟨t, ht⟩ := List.rdropWhile_prefix isPySpace (cs.dropWhile isPySpace)
    cases hR : (cs.dropWhile isPySpace).rdropWhile isPySpace with
    | nil => simp
    | cons a t' =>
      have hXa : cs.dropWhile isPySpace = a :: (t' ++ t) := by
        rw [← ht, hR]; simp
      have hpa : ¬ isPySpace a := by
        have h0 : 0 < (cs.dropWhile isPySpace).length := by rw [hXa]; simp
        have hhead := List.dropWhile_eq_self_iff.mp hXd h0
        have hget : (cs.dropWhile isPySpace).get ⟨0, h0⟩ = a := by
          have hg := List.get_of_eq hXa ⟨0, h0⟩
          simpa using hg
        rwa [hget] at hhead
      simp [List.dropWhile_cons, hpa]
  rw [h1, List.rdropWhile_idempotent]

/-- Python strip is idempotent. -/
theorem pyStrip_idem (s : String) : pyStrip (pyStrip s) = pyStrip s := by
  unfold pyStrip
  exact congrArg String.mk (stripChars_idem s.data)

/-- Claim C2 (counterexample): on the exact scenario input — pageindex
`[(0,10,0,50),(10,25,50,140)]` over `"hello world\nfoo bar baz"` — the
parser does NOT give leaf 0 one block `"hello world"` and leaf 1 one
block `"foo bar baz"`: the half-open slice `[0:10)` is `"hello worl"`,
and leaf 1 gets the two blocks `"d"` and `"foo bar baz"`. -/
theorem c2_counterexample :
    (((blocks_from_searchtext "hello world\nfoo bar baz"
        [(0, 10, 0, 50), (10, 25, 50, 140)]).1.filter fun b =>
          b.page_id == 0).map fun b => b.text) = ["hello worl"] ∧
    (((blocks_from_searchtext "hello world\nfoo bar baz"
        [(0, 10, 0, 50), (10, 25, 50, 140)]).1.filter fun b =>
          b.page_id == 1).map fun b => b.text) = ["d", "foo bar baz"] ∧
    ¬ ((((blocks_from_searchtext "hello world\nfoo bar baz"
        [(0, 10, 0, 50), (10, 25, 50, 140)]).1.filter fun b =>
          b.page_id == 0).map fun b => b.text) = ["hello world"] ∧
       (((blocks_from_searchtext "hello world\nfoo bar baz"
        [(0, 10, 0, 50), (10, 25, 50, 140)]).1.filter fun b =>
          b.page_id == 1).map fun b => b.text) = ["foo bar baz"]) := by
  decide

/-- Claim C2 (as amended): with the page boundary at character 11 —
pageindex `[(0,11,0,50),(11,25,50,140)]` — the parser emits exactly
one Text Block `"hello world"` for leaf 0 and exactly one Text Block
`"foo bar baz"` for leaf 1. -/
theorem c2_scenario :
    (((blocks_from_searchtext "hello world\nfoo bar baz"
        [(0, 11, 0, 50), (11, 25, 50, 140)]).1.filter fun b =>
          b.page_id == 0).map fun b => b.text) = ["hello world"] ∧
    (((blocks_from_searchtext "hello world\nfoo bar baz"
        [(0, 11, 0, 50), (11, 25, 50, 140)]).1.filter fun b =>
          b.page_id == 1).map fun b => b.text) = ["foo bar baz"] := by
  decide

/-- Claim C3 (counterexample): with the mapping `{leaf=5, book_page="42"}`
present, resolving the absent book page 999 does not return a value at
all — `get_leaf_num` raises `ValueError` (modelled as `Except.error`),
contradicting "yields a NotFound result without raising an exception". -/
theorem c3_counterexample :
    get_leaf_num 999 "book" none (some [⟨5, "42"⟩]) none =
      Except.error
        "Could not look up book page '999': Book page '999' not found in page_numbers table" :=
  rfl

/-- Claim C3 (as amended): with mapping `{leaf=5, book_page="42"}`,
resolving book page 42 returns leaf 5; resolving the absent page 999
raises a catchable `ValueError` whose message marks the not-found
case, and with no mapping table and no identifier the raised message
marks the source-unavailable case; the two messages differ, so the
two failure kinds are distinguishable by a batch caller. -/
theorem c3_resolver :
    get_leaf_num 42 "book" none (some [⟨5, "42"⟩]) none = Except.ok 5 ∧
    get_leaf_num 999 "book" none (some [⟨5, "42"⟩]) none =
      Except.error
        "Could not look up book page '999': Book page '999' not found in page_numbers table" ∧
    get_leaf_num 999 "book" none none none =
      Except.error "Book page lookup requires either index database or IA ID" ∧
    ("Could not look up book page '999': Book page '999' not found in page_numbers table" ≠
      "Book page lookup requires either index database or IA ID") := by
  refine ⟨rfl, rfl, rfl, ?_⟩
  decide

/-- Claim C7: Scenario A — one page with one `ocr_par` block whose two
words carry `x_wconf` 91 and 87 and whose title carries
`bbox 100 200 300 250` yields exactly one Text Block with
`avg_confidence = 89` and `bbox = (100,200,300,250)`; in general the
confidence and glyph-size means run over the words where the value is
present only (a word with the value missing is excluded from the mean,
not counted as zero), and are `NULL` when no word carries the value. -/
theorem c7_confidence_and_bbox :
    ((parse_hocr [⟨"page_0001",
        [⟨"block_1", ["ocr_par"], "bbox 100 200 300 250", none, none, none, none,
          [⟨[⟨"Hello", "x_wconf 91"⟩, ⟨"World", "x_wconf 87"⟩]⟩]⟩]⟩]).map fun tb =>
      (tb.avg_confidence, tb.bbox, tb.text)) =
        [(some 89, some (100, 200, 300, 250), "Hello World")] ∧
    (∀ (pid n : Nat) (b : HBlock),
      (hocrBlockRecord pid n b).avg_confidence =
        (if ((blockWords b).filterMap fun w => parse_confidence w.title).isEmpty
         then none
         else some (meanQ ((blockWords b).filterMap fun w => parse_confidence w.title))) ∧
      (hocrBlockRecord pid n b).avg_font_size =
        (if ((blockWords b).filterMap fun w => parse_font_size w.title).isEmpty
         then none
         else some (meanQ ((blockWords b).filterMap fun w => parse_font_size w.title)))) ∧
    (hocrBlockRecord 0 0
      ⟨"b", ["ocr_par"], "", none, none, none, none,
        [⟨[⟨"a", "x_wconf 91"⟩, ⟨"b", ""⟩, ⟨"c", "x_wconf 87"⟩]⟩]⟩).avg_confidence =
      some 89 ∧
    (hocrBlockRecord 0 0
      ⟨"b", ["ocr_par"], "", none, none, none, none,
        [⟨[⟨"a", ""⟩]⟩]⟩).avg_confidence = none := by
  have hm : meanQ [91, 87] = 89 := by
    norm_num [meanQ]
  refine ⟨?_, fun pid n b => ⟨rfl, rfl⟩, ?_, rfl⟩
  · have h1 : ((parse_hocr [⟨"page_0001",
        [⟨"block_1", ["ocr_par"], "bbox 100 200 300 250", none, none, none, none,
          [⟨[⟨"Hello", "x_wconf 91"⟩, ⟨"World", "x_wconf 87"⟩]⟩]⟩]⟩]).map fun tb =>
      (tb.avg_confidence, tb.bbox, tb.text)) =
        [(some (meanQ [91, 87]), some (100, 200, 300, 250), "Hello World")] := rfl
    rw [h1, hm]
  · have h2 : (hocrBlockRecord 0 0
      ⟨"b", ["ocr_par"], "", none, none, none, none,
        [⟨[⟨"a", "x_wconf 91"⟩, ⟨"b", ""⟩, ⟨"c", "x_wconf 87"⟩]⟩]⟩).avg_confidence =
      some (meanQ [91, 87]) := rfl
    rw [h2, hm]

/-- Every row emitted by `processBlocks` carries the page id it was
called with. -/
theorem processBlocks_page_id (pid : Nat) :
    ∀ (n : Nat) (bs : List HBlock), ∀ tb ∈ processBlocks pid n bs, tb.page_id = pid := by
  intro n bs
  induction bs generalizing n with
  | nil => intro tb h; cases h
  | cons b rest ih =>
    intro tb h
    simp only [processBlocks] at h
    split at h
    · exact ih _ tb h
    · rcases List.mem_cons.mp h with h | h
      · rw [h]; rfl
      · exact ih _ tb h

/-- Claim C10: a page whose id has no `page_` + digits match (including
no id at all) gets leaf number 0 rather than an error, and every block
the parser emits for such a page carries `page_id = 0`; two
unidentifiable pages therefore collide on leaf 0 (shown concretely for
ids `cover` and `notes`). -/
theorem c10_silent_leaf_zero :
    (∀ p : HPage, searchKeyNum "page_" p.id = none →
      extract_page_id p = 0 ∧
      ∀ tb ∈ processBlocks (extract_page_id p) 0
        (sort_blocks_by_position (collectBlocks p)), tb.page_id = 0) ∧
    ((parse_hocr
      [⟨"cover", [⟨"b1", ["ocr_par"], "", none, none, none, none, [⟨[⟨"x", ""⟩]⟩]⟩]⟩,
       ⟨"notes", [⟨"b2", ["ocr_par"], "", none, none, none, none, [⟨[⟨"y", ""⟩]⟩]⟩]⟩]).map
        fun tb => tb.page_id) = [0, 0] := by
  constructor
  · intro p hp
    have h0 : extract_page_id p = 0 := by
      simp [extract_page_id, hp]
    refine ⟨h0, ?_⟩
    intro tb htb
    rw [processBlocks_page_id _ _ _ tb htb, h0]
  · decide

/-- Witness for C10 at a concrete unidentifiable page. -/
theorem c10_witness :
    extract_page_id ⟨"cover", []⟩ = 0 :=
  (c10_silent_leaf_zero.1 ⟨"cover", []⟩ rfl).1

/-- Claim C4 (counterexample): when the whole query happens to start
and end with a double quote, `escape_fts_query` returns it verbatim,
so the unquoted hyphenated term `b-c` in the middle is NOT
phrase-quoted even though it contains a special character, is no
operator token and is not itself quoted — the per-term rule the claim
states would quote it. -/
theorem c4_counterexample :
    escape_fts_query "\"a\" b-c \"d\"" = "\"a\" b-c \"d\"" ∧
    claimedEscape "\"a\" b-c \"d\"" = "\"a\" \"b-c\" \"d\"" ∧
    escape_fts_query "\"a\" b-c \"d\"" ≠ claimedEscape "\"a\" b-c \"d\"" := by
  decide

/-- Claim C4 (as amended): unless the entire query starts and ends
with a double quote (returned verbatim), default-mode escaping is
exactly the claimed per-term rule — a whitespace-separated term
containing a special character (hyphen, `*`, `:`, parenthesis, caret)
is phrase-quoted unless it is a recognized operator token or already
quoted, and all other terms pass unchanged; `--raw` passes any query
through unmodified.  Consequently `self-adjusting` becomes the phrase
query `"self-adjusting"`, which (FTS5 phrase semantics, modelled from
the spec) matches the document with the literal hyphenated token and
not the document with `self` and `adjusting` as separate non-adjacent
words, though the latter matches the two bare terms under implicit
AND. -/
theorem c4_escaping :
    (∀ t : String, escapeToken t = claimedEscapeToken t) ∧
    (∀ q : String,
      escape_fts_query q = if isQuotedTok q then q else claimedEscape q) ∧
    escape_fts_query "self-adjusting" = "\"self-adjusting\"" ∧
    (∀ q : String, ftsQuery true q = q) ∧
    phraseMatches "a self-adjusting wrench" ["self", "adjusting"] = true ∧
    phraseMatches "on self repair while adjusting the valve" ["self", "adjusting"] = false ∧
    andMatches "on self repair while adjusting the valve" ["self", "adjusting"] = true := by
  have ha : ∀ t : String, escapeToken t = claimedEscapeToken t := by
    intro t
    unfold escapeToken claimedEscapeToken
    cases hk : isFts5Keyword t <;> cases hq : isQuotedTok t <;>
      cases hs : hasSpecialChar t <;> simp [hk, hq, hs]
  refine ⟨ha, ?_, by decide, fun q => rfl, by decide, by decide, by decide⟩
  intro q
  unfold escape_fts_query claimedEscape
  cases hq : isQuotedTok q <;> simp only [hq, Bool.false_eq_true, if_false, if_true]
  · exact congrArg joinSp (List.map_congr_left fun t _ => ha t)

/-- The text of every row `processBlocks` emits strips non-empty: the
emission guard tested exactly that string. -/
theorem processBlocks_trimmed (pid : Nat) :
    ∀ (n : Nat) (bs : List HBlock),
      ∀ tb ∈ processBlocks pid n bs, pyStrip tb.text ≠ "" := by
  intro n bs
  induction bs generalizing n with
  | nil => intro tb h; cases h
  | cons b rest ih =>
    intro tb h
    simp only [processBlocks] at h
    split at h
    · exact ih _ tb h
    · rename_i hguard
      rcases List.mem_cons.mp h with h | h
      · rw [h]; exact hguard
      · exact ih _ tb h

/-- The text of every row `djvuParas` emits strips non-empty. -/
theorem djvuParas_trimmed (pid : Nat) :
    ∀ (n : Nat) (ps : List DPara),
      ∀ tb ∈ djvuParas pid n ps, pyStrip tb.text ≠ "" := by
  intro n ps
  induction ps generalizing n with
  | nil => intro tb h; cases h
  | cons p rest ih =>
    intro tb h
    simp only [djvuParas] at h
    split at h
    · exact ih _ tb h
    · split at h
      · exact ih _ tb h
      · rename_i hguard
        rcases List.mem_cons.mp h with h | h
        · rw [h]; exact hguard
        · exact ih _ tb h

/-- The text of every searchtext block strips non-empty: it was
emitted already stripped, and stripping is idempotent. -/
theorem searchtextPageBlocks_trimmed (pid : Nat) (pageText : String) :
    ∀ b ∈ searchtextPageBlocks pid pageText, pyStrip b.text ≠ "" := by
  intro b hb
  unfold searchtextPageBlocks at hb
  rw [List.mem_filterMap] at hb
  obtain ⟨p, _, hpb⟩ := hb
  by_cases hc : pyStrip p.2 = ""
  · simp [hc] at hpb
  · simp only [hc, if_false] at hpb
    have hbt : b.text = pyStrip p.2 := by
      rw [← Option.some_inj.mp hpb]
    rw [hbt, pyStrip_idem]
    exact hc

/-- Claim C6: for each of the three parsers, every emitted Text Block
has non-empty text after whitespace trimming — empty-trimming blocks
are skipped, never emitted. -/
theorem c6_trimmed_nonempty :
    (∀ pages : List HPage,
      ((parse_hocr pages).all fun tb => pyStrip tb.text != "") = true) ∧
    (∀ (content : String) (pageindex : List (Nat × Nat × Nat × Nat)),
      (((blocks_from_searchtext content pageindex).1).all fun b =>
        pyStrip b.text != "") = true) ∧
    (∀ objects : List DObject,
      ((parse_djvu_xml objects).all fun tb => pyStrip tb.text != "") = true) := by
  refine ⟨?_, ?_, ?_⟩
  · intro pages
    rw [List.all_eq_true]
    intro tb htb
    rw [bne_iff_ne]
    unfold parse_hocr at htb
    rw [List.mem_flatten] at htb
    obtain ⟨l, hl, htb⟩ := htb
    rw [List.mem_map] at hl
    obtain ⟨p, _, rfl⟩ := hl
    exact processBlocks_trimmed _ _ _ tb htb
  · intro content pageindex
    rw [List.all_eq_true]
    intro b hb
    rw [bne_iff_ne]
    simp only [blocks_from_searchtext] at hb
    rw [List.mem_flatten] at hb
    obtain ⟨l, hl, hb⟩ := hb
    rw [List.mem_map] at hl
    obtain ⟨p, _, rfl⟩ := hl
    exact searchtextPageBlocks_trimmed _ _ b hb
  · intro objects
    rw [List.all_eq_true]
    intro tb htb
    rw [bne_iff_ne]
    unfold parse_djvu_xml at htb
    rw [List.mem_flatten] at htb
    obtain ⟨l, hl, htb⟩ := htb
    rw [List.mem_map] at hl
    obtain ⟨p, _, rfl⟩ := hl
    exact djvuParas_trimmed _ _ _ tb htb
/-- Lexicographic reading of the position-key comparison. -/
theorem keyLe_iff (a b : Nat × Nat) :
    keyLe a b = true ↔ (a.1 < b.1 ∨ (a.1 = b.1 ∧ a.2 ≤ b.2)) := by
  simp [keyLe]

/-- The position-key comparison is total. -/
theorem keyLe_total (a b : Nat × Nat) : keyLe a b = true ∨ keyLe b a = true := by
  rw [keyLe_iff, keyLe_iff]
  omega

/-- The position-key comparison is transitive. -/
theorem keyLe_trans {a b c : Nat × Nat} (h1 : keyLe a b = true)
    (h2 : keyLe b c = true) : keyLe a c = true := by
  rw [keyLe_iff] at h1 h2 ⊢
  omega

/-- Membership through stable insertion. -/
theorem mem_insertBlk {b x : HBlock} :
    ∀ {l : List HBlock}, x ∈ insertBlk b l → x = b ∨ x ∈ l := by
  intro l
  induction l with
  | nil =>
    intro h
    rcases List.mem_cons.mp h with h | h
    · exact Or.inl h
    · cases h
  | cons y ys ih =>
    intro h
    simp only [insertBlk] at h
    split at h
    · rcases List.mem_cons.mp h with h | h
      · exact Or.inl h
      · exact Or.inr h
    · rcases List.mem_cons.mp h with h | h
      · exact Or.inr (h ▸ List.mem_cons_self y ys)
      · rcases ih h with h | h
        · exact Or.inl h
        · exact Or.inr (List.mem_cons_of_mem y h)

/-- Stable insertion preserves sortedness by the position key. -/
theorem pairwise_insertBlk {b : HBlock} {l : List HBlock}
    (hl : l.Pairwise fun x y => keyLe (posKey x) (posKey y) = true) :
    (insertBlk b l).Pairwise fun x y => keyLe (posKey x) (posKey y) = true := by
  induction l with
  | nil => simp [insertBlk]
  | cons y ys ih =>
    rcases List.pairwise_cons.mp hl with ⟨hy, hys⟩
    simp only [insertBlk]
    split
    · rename_i hb
      refine List.pairwise_cons.mpr ⟨?_, hl⟩
      intro z hz
      rcases List.mem_cons.mp hz with rfl | hz
      · exact hb
      · exact keyLe_trans hb (hy z hz)
    · rename_i hb
      have hyb : keyLe (posKey y) (posKey b) = true := by
        rcases keyLe_total (posKey b) (posKey y) with h | h
        · exact absurd h hb
        · exact h
      refine List.pairwise_cons.mpr ⟨?_, ih hys⟩
      intro z hz
      rcases mem_insertBlk hz with rfl | hz
      · exact hyb
      · exact hy z hz

/-- The sort of `sort_blocks_by_position` is sorted under `keyLe`. -/
theorem pairwise_sortBlocks (l : List HBlock) :
    (sort_blocks_by_position l).Pairwise
      fun x y => keyLe (posKey x) (posKey y) = true := by
  induction l with
  | nil => exact List.Pairwise.nil
  | cons b bs ih => exact pairwise_insertBlk ih

/-- Every emitted row comes from a source block of the processed list. -/
theorem mem_processBlocks_src (pid : Nat) :
    ∀ (n : Nat) (bs : List HBlock), ∀ tb ∈ processBlocks pid n bs,
      ∃ m b, b ∈ bs ∧ tb = hocrBlockRecord pid m b := by
  intro n bs
  induction bs generalizing n with
  | nil => intro tb h; cases h
  | cons b rest ih =>
    intro tb h
    simp only [processBlocks] at h
    split at h
    · obtain ⟨m, b2, hb2, htb⟩ := ih _ tb h
      exact ⟨m, b2, List.mem_cons_of_mem _ hb2, htb⟩
    · rcases List.mem_cons.mp h with h | h
      · exact ⟨n, b, List.mem_cons_self _ _, h⟩
      · obtain ⟨m, b2, hb2, htb⟩ := ih _ tb h
        exact ⟨m, b2, List.mem_cons_of_mem _ hb2, htb⟩

/-- The key read back from a row's bbox columns is the key its source
block was sorted under. -/
theorem tbKey_hocrBlockRecord (pid n : Nat) (b : HBlock) :
    tbKey (hocrBlockRecord pid n b) = posKey b := by
  unfold tbKey posKey hocrBlockRecord
  cases hq : parse_bbox b.title with
  | none => rfl
  | some q =>
    obtain ⟨x0, y0, x1, y1⟩ := q
    rfl

/-- Emission preserves the sortedness of the processed list. -/
theorem processBlocks_pairwise_key (pid : Nat) :
    ∀ (n : Nat) (bs : List HBlock),
      bs.Pairwise (fun x y => keyLe (posKey x) (posKey y) = true) →
      (processBlocks pid n bs).Pairwise
        (fun s t => keyLe (tbKey s) (tbKey t) = true) := by
  intro n bs
  induction bs generalizing n with
  | nil => intro _; exact List.Pairwise.nil
  | cons b rest ih =>
    intro hp
    rcases List.pairwise_cons.mp hp with ⟨hb, hrest⟩
    simp only [processBlocks]
    split
    · exact ih _ hrest
    · refine List.pairwise_cons.mpr ⟨?_, ih _ hrest⟩
      intro t ht
      obtain ⟨m, b2, hb2, rfl⟩ := mem_processBlocks_src pid _ _ t ht
      rw [tbKey_hocrBlockRecord, tbKey_hocrBlockRecord]
      exact hb b2 hb2

/-- Emitted block numbers are bounded below by the starting counter. -/
theorem processBlocks_num_ge (pid : Nat) :
    ∀ (n : Nat) (bs : List HBlock),
      ∀ tb ∈ processBlocks pid n bs, n ≤ tb.block_number := by
  intro n bs
  induction bs generalizing n with
  | nil => intro tb h; cases h
  | cons b rest ih =>
    intro tb h
    simp only [processBlocks] at h
    split at h
    · exact Nat.le_of_succ_le (ih _ tb h)
    · rcases List.mem_cons.mp h with h | h
      · rw [h]
        exact Nat.le_refl n
      · exact Nat.le_of_succ_le (ih _ tb h)

/-- Emitted block numbers are strictly increasing along the emission
order. -/
theorem processBlocks_num_increasing (pid : Nat) :
    ∀ (n : Nat) (bs : List HBlock),
      (processBlocks pid n bs).Pairwise
        (fun s t => s.block_number < t.block_number) := by
  intro n bs
  induction bs generalizing n with
  | nil => exact List.Pairwise.nil
  | cons b rest ih =>
    simp only [processBlocks]
    split
    · exact ih _
    · refine List.pairwise_cons.mpr ⟨?_, ih _⟩
      intro t ht
      have hge := processBlocks_num_ge pid (n + 1) rest t ht
      have hbn : (hocrBlockRecord pid n b).block_number = n := rfl
      rw [hbn]
      omega

/-- With no empty-text block to skip, the emitted numbers are the
consecutive run starting at the counter. -/
theorem processBlocks_numbers_range (pid : Nat) :
    ∀ (n : Nat) (bs : List HBlock),
      (∀ b ∈ bs, pyStrip (extract_plain_text b) ≠ "") →
      (processBlocks pid n bs).map (fun tb => tb.block_number) =
        List.range' n bs.length := by
  intro n bs
  induction bs generalizing n with
  | nil => intro _; rfl
  | cons b rest ih =>
    intro hall
    simp only [processBlocks]
    rw [if_neg (hall b (List.mem_cons_self _ _))]
    simp only [List.map_cons, List.length_cons, List.range'_succ]
    rw [ih _ fun x hx => hall x (List.mem_cons_of_mem _ hx)]
    rfl

/-- Claim C8 (counterexample): a page whose position-sorted block list
starts with an empty-text `ocr_par` (skipped) followed by one with
text emits a single Text Block carrying block number 1 — the numbers
of the emitted blocks are not the gap-free run `0, 1, 2, ...`. -/
theorem c8_counterexample :
    ((parse_hocr [⟨"page_0002",
      [⟨"b1", ["ocr_par"], "bbox 0 0 5 5", none, none, none, none, []⟩,
       ⟨"b2", ["ocr_par"], "bbox 0 1 5 5", none, none, none, none,
         [⟨[⟨"x", ""⟩]⟩]⟩]⟩]).map fun tb => tb.block_number) = [1] ∧
    ((parse_hocr [⟨"page_0002",
      [⟨"b1", ["ocr_par"], "bbox 0 0 5 5", none, none, none, none, []⟩,
       ⟨"b2", ["ocr_par"], "bbox 0 1 5 5", none, none, none, none,
         [⟨[⟨"x", ""⟩]⟩]⟩]⟩]).map fun tb => tb.block_number) ≠
      List.range (parse_hocr [⟨"page_0002",
        [⟨"b1", ["ocr_par"], "bbox 0 0 5 5", none, none, none, none, []⟩,
         ⟨"b2", ["ocr_par"], "bbox 0 1 5 5", none, none, none, none,
           [⟨[⟨"x", ""⟩]⟩]⟩]⟩]).length := by
  decide

/-- Claim C8 (as amended): within a page the emitted Text Blocks are
ordered by the `(top, left)` bbox key (missing coordinates read as 0,
equal keys keeping source order), and their block numbers are their
positions in the position-sorted pre-filter block list — strictly
increasing, with gaps exactly where empty-text blocks were skipped;
when no block of the page is skipped they are the gap-free run
`0, 1, 2, ...`. -/
theorem c8_ordering (p : HPage) :
    (processBlocks (extract_page_id p) 0
      (sort_blocks_by_position (collectBlocks p))).Pairwise
        (fun s t => keyLe (tbKey s) (tbKey t) = true) ∧
    (processBlocks (extract_page_id p) 0
      (sort_blocks_by_position (collectBlocks p))).Pairwise
        (fun s t => s.block_number < t.block_number) ∧
    ((∀ b ∈ sort_blocks_by_position (collectBlocks p),
        pyStrip (extract_plain_text b) ≠ "") →
      (processBlocks (extract_page_id p) 0
        (sort_blocks_by_position (collectBlocks p))).map
          (fun tb => tb.block_number) =
        List.range (sort_blocks_by_position (collectBlocks p)).length) := by
  refine ⟨?_, processBlocks_num_increasing _ _ _, ?_⟩
  · exact processBlocks_pairwise_key _ _ _ (pairwise_sortBlocks _)
  · intro hall
    rw [List.range_eq_range']
    exact processBlocks_numbers_range _ _ _ hall

/-- Witness for C8 at a one-block page with non-empty text. -/
theorem c8_ordering_witness :
    (processBlocks
      (extract_page_id ⟨"page_0003",
        [⟨"w1", ["ocr_par"], "bbox 2 3 9 9", none, none, none, none,
          [⟨[⟨"hi", ""⟩]⟩]⟩]⟩) 0
      (sort_blocks_by_position (collectBlocks ⟨"page_0003",
        [⟨"w1", ["ocr_par"], "bbox 2 3 9 9", none, none, none, none,
          [⟨[⟨"hi", ""⟩]⟩]⟩]⟩))).map (fun tb => tb.block_number) =
      List.range (sort_blocks_by_position (collectBlocks ⟨"page_0003",
        [⟨"w1", ["ocr_par"], "bbox 2 3 9 9", none, none, none, none,
          [⟨[⟨"hi", ""⟩]⟩]⟩]⟩)).length :=
  (c8_ordering ⟨"page_0003",
    [⟨"w1", ["ocr_par"], "bbox 2 3 9 9", none, none, none, none,
      [⟨[⟨"hi", ""⟩]⟩]⟩]⟩).2.2 (by decide)

/-- Appending a fresh row extends the block-level aggregate by its
`(rowid, text)` entry. -/
theorem blocksAgg_append (l : List TBRow) (r : TBRow) :
    blocksAgg (l ++ [r]) = blocksAgg l ++ [(r.rowid, r.text)] := by
  simp [blocksAgg]

/-- The per-rowid entry swap of the `au` trigger equals recomputing
the block-level aggregate from the updated table. -/
theorem blocksAgg_update (l : List TBRow) (rid : Nat) (t : String) :
    (blocksAgg l).map (fun e => if e.1 == rid then (e.1, t) else e) =
      blocksAgg (l.map fun r => if r.rowid == rid then { r with text := t } else r) := by
  simp only [blocksAgg, List.map_map]
  refine List.map_congr_left fun r _ => ?_
  by_cases h : r.rowid = rid <;> simp [h]

/-- The per-rowid entry removal of the `ad` trigger equals recomputing
the block-level aggregate from the filtered table. -/
theorem blocksAgg_filter (l : List TBRow) (rid : Nat) :
    (blocksAgg l).filter (fun e => !(e.1 == rid)) =
      blocksAgg (l.filter fun r => !(r.rowid == rid)) := by
  induction l with
  | nil => rfl
  | cons r rs ih =>
    cases h : r.rowid == rid <;>
      simp [blocksAgg, List.filter_cons, h] <;>
      simpa [blocksAgg] using ih

/-- A row that is `≤` every element of a list inserts at its front. -/
theorem insertByBlockNum_front {r : TBRow} {l : List TBRow}
    (h : ∀ x ∈ l, r.block_number ≤ x.block_number) :
    insertByBlockNum r l = r :: l := by
  cases l with
  | nil => rfl
  | cons x xs =>
    simp only [insertByBlockNum]
    rw [if_pos (h x (List.mem_cons_self _ _))]

/-- A list already sorted by block number is fixed by the stable
sort. -/
theorem sortByBlockNum_sorted_id :
    ∀ l : List TBRow,
      l.Pairwise (fun a b => a.block_number ≤ b.block_number) →
      sortByBlockNum l = l := by
  intro l
  induction l with
  | nil => intro _; rfl
  | cons r rs ih =>
    intro hp
    rcases List.pairwise_cons.mp hp with ⟨hr, hrs⟩
    simp only [sortByBlockNum]
    rw [ih hrs]
    exact insertByBlockNum_front hr

/-- Claim C5 (as amended): the block-level index always equals the
`(rowid, text)` projection of the current `text_blocks` rows, and the
page-level index always equals the per-leaf `group_concat` of the
current rows in rowid (insertion) order — both after a full
`build_fts_indexes` and after every triggered insert, update and
delete; and whenever the rows of each leaf sit in block-number order
(as every build inserts them) the rowid-order page aggregate IS the
block-order aggregate. -/
theorem c5_index_consistency :
    (∀ s : FtsState, synced (build_fts_indexes s)) ∧
    (∀ (s : FtsState) (r : TBRow), synced s → synced (insertRow s r)) ∧
    (∀ (s : FtsState) (rid : Nat) (t : String),
      synced s → synced (updateRowText s rid t)) ∧
    (∀ (s : FtsState) (rid : Nat), synced s → synced (deleteRow s rid)) ∧
    (∀ rows : List TBRow,
      rows.Pairwise (fun a b =>
        a.page_id = b.page_id → a.block_number ≤ b.block_number) →
      pagesAgg rows = blockOrderAgg rows) := by
  refine ⟨?_, ?_, ?_, ?_, ?_⟩
  · intro s
    exact ⟨rfl, rfl⟩
  · rintro s r ⟨h1, _⟩
    refine ⟨?_, rfl⟩
    show s.blockFts ++ [(r.rowid, r.text)] = blocksAgg (s.blocks ++ [r])
    rw [h1, blocksAgg_append]
  · rintro s rid t ⟨h1, _⟩
    refine ⟨?_, rfl⟩
    show (s.blockFts.map fun e => if e.1 == rid then (e.1, t) else e) = _
    rw [h1, blocksAgg_update]
    rfl
  · rintro s rid ⟨h1, _⟩
    refine ⟨?_, rfl⟩
    show (s.blockFts.filter fun e => !(e.1 == rid)) = _
    rw [h1, blocksAgg_filter]
    rfl
  · intro rows hp
    unfold pagesAgg blockOrderAgg
    refine List.map_congr_left fun pid _ => ?_
    have hf : (rows.filter fun r => r.page_id == pid).Pairwise
        (fun a b => a.block_number ≤ b.block_number) := by
      have hsub : (rows.filter fun r => r.page_id == pid).Pairwise
          (fun a b => a.page_id = b.page_id → a.block_number ≤ b.block_number) :=
        List.Pairwise.sublist (List.filter_sublist rows) hp
      refine hsub.imp_of_mem ?_
      intro a b ha hb hr
      have hap := (List.mem_filter.mp ha).2
      have hbp := (List.mem_filter.mp hb).2
      exact hr (by
        have h1 : a.page_id = pid := by simpa using hap
        have h2 : b.page_id = pid := by simpa using hbp
        rw [h1, h2])
    rw [sortByBlockNum_sorted_id _ hf]
    rfl

/-- Claim C5 (counterexample): starting from a consistent state whose
single Text Block for leaf 0 has block number 1, inserting that leaf's
block number 0 appends it in rowid order, so the page-level entry
reads `"b a"` — the rowid-order concatenation — while block order
would read `"a b"`; the page text is NOT the block-order
concatenation after an arbitrary insert. -/
theorem c5_counterexample :
    (insertRow (build_fts_indexes ⟨[⟨0, 0, 1, "b"⟩], [], []⟩)
      ⟨1, 0, 0, "a"⟩).pagesFts = [(0, "b a")] ∧
    blockOrderAgg (insertRow (build_fts_indexes ⟨[⟨0, 0, 1, "b"⟩], [], []⟩)
      ⟨1, 0, 0, "a"⟩).blocks = [(0, "a b")] ∧
    (insertRow (build_fts_indexes ⟨[⟨0, 0, 1, "b"⟩], [], []⟩)
      ⟨1, 0, 0, "a"⟩).pagesFts ≠
      blockOrderAgg (insertRow (build_fts_indexes ⟨[⟨0, 0, 1, "b"⟩], [], []⟩)
        ⟨1, 0, 0, "a"⟩).blocks := by
  decide

/-- Witness for C5: a concrete consistent state stays consistent
through an insert, and a concrete block-ordered table has equal
rowid-order and block-order aggregates. -/
theorem c5_index_consistency_witness :
    synced (insertRow (build_fts_indexes ⟨[⟨0, 0, 0, "x"⟩], [], []⟩)
      ⟨1, 1, 0, "y"⟩) ∧
    pagesAgg [⟨0, 0, 0, "x"⟩, ⟨1, 0, 1, "y"⟩] =
      blockOrderAgg [⟨0, 0, 0, "x"⟩, ⟨1, 0, 1, "y"⟩] :=
  by
  constructor
  · exact c5_index_consistency.2.1 (build_fts_indexes ⟨[⟨0, 0, 0, "x"⟩], [], []⟩)
      ⟨1, 1, 0, "y"⟩ ⟨rfl, rfl⟩
  · refine c5_index_consistency.2.2.2.2 [⟨0, 0, 0, "x"⟩, ⟨1, 0, 1, "y"⟩] ?_
    refine List.pairwise_cons.mpr ⟨?_, List.pairwise_singleton _ _⟩
    intro b hb _
    rcases List.mem_cons.mp hb with h | h
    · rw [h]
      exact Nat.zero_le _
    · cases h

/-- Claim C9: the text-only rebuild (`rebuild_text_blocks` then
`build_fts_indexes`) replaces exactly `text_blocks` and the two
derived indices; `catalog_metadata`, `document_metadata`,
`archive_files`, `pages` and `page_numbers` are untouched. -/
theorem c9_rebuild_frame (s : Store TextBlock) (hocr : List HPage) :
    (rebuildText s hocr).catalog_metadata = s.catalog_metadata ∧
    (rebuildText s hocr).document_metadata = s.document_metadata ∧
    (rebuildText s hocr).archive_files = s.archive_files ∧
    (rebuildText s hocr).pages = s.pages ∧
    (rebuildText s hocr).page_numbers = s.page_numbers ∧
    (rebuildText s hocr).text_blocks = some (hocrBlocksTable hocr) ∧
    (rebuildText s hocr).text_blocks_fts =
      some ((hocrBlocksTable hocr).map fun b => b.text) ∧
    (rebuildText s hocr).pages_fts =
      some (pagesAggPairs ((hocrBlocksTable hocr).map fun b => (b.page_id, b.text))) :=
  ⟨rfl, rfl, rfl, rfl, rfl, rfl, rfl, rfl⟩

/-- Claim C1 (counterexample): a build into a fresh location that
fails at statement 4 (the `text_blocks` insert, after the three
metadata/manifest inserts committed) persists a store that is neither
empty nor the completed catalog — `catalog_metadata` is present while
`text_blocks` is absent.  The table-replacement sequence runs under
autocommit with no enclosing transaction, so this partial catalog
remains on disk. -/
theorem c1_counterexample :
    (runPrefix "it" "sl" "t0" "searchtext" [("identifier", "it")] []
      [⟨0, 0, "hello", 5⟩] [⟨0, 0, 5, 0, 9⟩]
      [⟨5, some "42", none, none, none⟩] 4).catalog_metadata ≠ none ∧
    (runPrefix "it" "sl" "t0" "searchtext" [("identifier", "it")] []
      [⟨0, 0, "hello", 5⟩] [⟨0, 0, 5, 0, 9⟩]
      [⟨5, some "42", none, none, none⟩] 4).text_blocks = none ∧
    ¬ (runPrefix "it" "sl" "t0" "searchtext" [("identifier", "it")] []
        [⟨0, 0, "hello", 5⟩] [⟨0, 0, 5, 0, 9⟩]
        [⟨5, some "42", none, none, none⟩] 4 = emptyStore ∨
       runPrefix "it" "sl" "t0" "searchtext" [("identifier", "it")] []
        [⟨0, 0, "hello", 5⟩] [⟨0, 0, 5, 0, 9⟩]
        [⟨5, some "42", none, none, none⟩] 4 =
       runPrefix "it" "sl" "t0" "searchtext" [("identifier", "it")] []
        [⟨0, 0, "hello", 5⟩] [⟨0, 0, 5, 0, 9⟩]
        [⟨5, some "42", none, none, none⟩] 10) := by
  decide

/-- Claim C1 (as amended): a write failure at statement `k` aborts the
rest of the build, and the persisted store is exactly the fold of the
first `k` autocommitted statements — tables written before the
failure keep their new contents, tables at or after it stay dropped.
The eleven reachable persisted states, for every input: nothing yet
(k = 0, 1), then one more table per statement, the identity index
step (k = 8), and the two index builds. -/
theorem c1_build_prefix_states (ia_id slug now mode : String)
    (metadata : List (String × String)) (files : List FileRec)
    (blocks : List STBlock) (pages : List PageRec) (pns : List PNInput) :
    runPrefix ia_id slug now mode metadata files blocks pages pns 0 = emptyStore ∧
    runPrefix ia_id slug now mode metadata files blocks pages pns 1 = emptyStore ∧
    runPrefix ia_id slug now mode metadata files blocks pages pns 2 =
      ⟨some (catalogRecords slug now mode), none, none, none, none, none, none, none⟩ ∧
    runPrefix ia_id slug now mode metadata files blocks pages pns 3 =
      ⟨some (catalogRecords slug now mode), some (mdJoin metadata),
        none, none, none, none, none, none⟩ ∧
    runPrefix ia_id slug now mode metadata files blocks pages pns 4 =
      ⟨some (catalogRecords slug now mode), some (mdJoin metadata),
        some (archiveTable ia_id files), none, none, none, none, none⟩ ∧
    runPrefix ia_id slug now mode metadata files blocks pages pns 5 =
      ⟨some (catalogRecords slug now mode), some (mdJoin metadata),
        some (archiveTable ia_id files), some (stBlocksTable blocks),
        none, none, none, none⟩ ∧
    runPrefix ia_id slug now mode metadata files blocks pages pns 6 =
      ⟨some (catalogRecords slug now mode), some (mdJoin metadata),
        some (archiveTable ia_id files), some (stBlocksTable blocks),
        some (pagesTable pages), none, none, none⟩ ∧
    runPrefix ia_id slug now mode metadata files blocks pages pns 7 =
      ⟨some (catalogRecords slug now mode), some (mdJoin metadata),
        some (archiveTable ia_id files), some (stBlocksTable blocks),
        some (pagesTable pages), some (pnTable pns), none, none⟩ ∧
    runPrefix ia_id slug now mode metadata files blocks pages pns 8 =
      ⟨some (catalogRecords slug now mode), some (mdJoin metadata),
        some (archiveTable ia_id files), some (stBlocksTable blocks),
        some (pagesTable pages), some (pnTable pns), none, none⟩ ∧
    runPrefix ia_id slug now mode metadata files blocks pages pns 9 =
      ⟨some (catalogRecords slug now mode), some (mdJoin metadata),
        some (archiveTable ia_id files), some (stBlocksTable blocks),
        some (pagesTable pages), some (pnTable pns),
        some ((stBlocksTable blocks).map fun b => b.text), none⟩ ∧
    runPrefix ia_id slug now mode metadata files blocks pages pns 10 =
      ⟨some (catalogRecords slug now mode), some (mdJoin metadata),
        some (archiveTable ia_id files), some (stBlocksTable blocks),
        some (pagesTable pages), some (pnTable pns),
        some ((stBlocksTable blocks).map fun b => b.text),
        some (pagesAggPairs ((stBlocksTable blocks).map fun b =>
          (b.page_id, b.text)))⟩ :=
  ⟨rfl, rfl, rfl, rfl, rfl, rfl, rfl, rfl, rfl, rfl, rfl⟩

end IAU
